import Mathlib

/-
Shallow embedding of the yiigo MySQL helper (src/mysql.go).

Go dynamic values (`interface` values stored in a `yiigo.X` map) are
modelled by the inductive type `Value`; a `yiigo.X` map is modelled as an
association list `List (String × Value)` iterated in list order (Go map
iteration order is unspecified, so theorems quantify over every order).
An unchecked Go type assertion `v.(T)` that fails panics the process; a
function that can panic is embedded as an `Option`-valued function, where
`none` models the panic.
-/

namespace Yiigo

/-- Dynamic value stored in a yiigo map entry: `nil`, `string`, `int`,
`[]interface` (`vSeq`), `[]string` (`vStrList`), the SQL expression
struct `expr` built by `Expr` (`vExpr`, a raw fragment plus its own bind
args), a nested `yiigo.X` map (`vMap`), and `[]yiigo.X` (`vRows`). -/
inductive Value where
  | vNull : Value
  | vStr : String → Value
  | vInt : Int → Value
  | vSeq : List Value → Value
  | vStrList : List String → Value
  | vExpr : String → List Value → Value
  | vMap : List (String × Value) → Value
  | vRows : List (List (String × Value)) → Value

/-- Model of the `yiigo.X` map type: an association list in iteration order. -/
abbrev X : Type := List (String × Value)

/-- Map lookup `x[k]` with presence flag, first matching key wins. -/
def getX : X → String → Option Value
  | [], _ => none
  | (k2, v) :: rest, k => if k2 = k then some v else getX rest k

/-- Map assignment `x[k] = v`: replaces the first binding of `k`, or appends. -/
def setX : X → String → Value → X
  | [], k, v => [(k, v)]
  | (k2, v2) :: rest, k, v =>
    if k2 = k then (k, v) :: rest else (k2, v2) :: setX rest k v

/-- Model of the `MySQL` struct: the bound table name, plus the table
prefix that `getPrefix` resolves from configuration (an external
collaborator, so it is carried as a field here). -/
structure MySQL where
  table : String
  pfx : String

/-- Go `if v, ok := q[k]; ok` followed by the unchecked assertion
`v.(string)`: absent key gives `some none`, a string gives `some (some s)`,
any other dynamic type panics (`none`). -/
def asStr : Option Value → Option (Option String)
  | none => some none
  | some (Value.vStr s) => some (some s)
  | some _ => none

/-- Optional lookup followed by the unchecked assertion `v.(int)`. -/
def asInt : Option Value → Option (Option Int)
  | none => some none
  | some (Value.vInt n) => some (some n)
  | some _ => none

/-- Optional lookup followed by the unchecked assertion `v.([]interface)`. -/
def asSeq : Option Value → Option (Option (List Value))
  | none => some none
  | some (Value.vSeq xs) => some (some xs)
  | some _ => none

/-- Optional lookup followed by the unchecked assertion `v.([]string)`. -/
def asStrList : Option Value → Option (Option (List String))
  | none => some none
  | some (Value.vStrList ss) => some (some ss)
  | some _ => none

/-- Optional lookup followed by the unchecked assertion `v.(X)`. -/
def asX : Option Value → Option (Option (List (String × Value)))
  | none => some none
  | some (Value.vMap d) => some (some d)
  | some _ => none

/-- Optional lookup followed by the unchecked assertion `v.([]X)`. -/
def asRows : Option Value → Option (Option (List (List (String × Value))))
  | none => some none
  | some (Value.vRows rs) => some (some rs)
  | some _ => none

/-- Loop body of `buildInsert`: one pass over the data map accumulating
column names, `?` placeholders and bind values, in iteration order. -/
def insertCols : X → List String × List String × List Value
  | [] => ([], [], [])
  | (k, v) :: rest =>
    let r := insertCols rest
    (k :: r.1, "?" :: r.2.1, v :: r.2.2)

/-- Embedding of `buildInsert(data X, tables ...string)`: the variadic
`tables` defaults to the bound table when empty and `tables[0]` is used. -/
def buildInsert (m : MySQL) (data : X) (tables : List String) : String × List Value :=
  let table := tables.headD m.table
  let r := insertCols data
  ("INSERT INTO " ++ m.pfx ++ table ++ " (" ++ String.intercalate (",") r.1 ++
      ") VALUES (" ++ String.intercalate (",") r.2.1 ++ ")",
    r.2.2)

/-- Inner loop of `buildBatchInsert` over the column list for one row:
Go `v[column]` yields the zero value `nil` for a missing key. -/
def batchCols (row : X) : List String → List String × List Value
  | [] => ([], [])
  | c :: cs =>
    let r := batchCols row cs
    ("?" :: r.1, ((getX row c).getD Value.vNull) :: r.2)

/-- Outer loop of `buildBatchInsert` over the row list, accumulating one
parenthesized placeholder group per row and the row's binds. -/
def batchRows (columns : List String) : List X → List String × List Value
  | [] => ([], [])
  | row :: rest =>
    let rc := batchCols row columns
    let rr := batchRows columns rest
    (("(" ++ String.intercalate (",") rc.1 ++ ")") :: rr.1, rc.2 ++ rr.2)

/-- Embedding of `buildBatchInsert(columns []string, data []X, tables ...string)`. -/
def buildBatchInsert (m : MySQL) (columns : List String) (data : List X)
    (tables : List String) : String × List Value :=
  let table := tables.headD m.table
  let r := batchRows columns data
  ("INSERT INTO " ++ m.pfx ++ table ++ " (" ++ String.intercalate (",") columns ++
      ") VALUES " ++ String.intercalate (",") r.1,
    r.2)

/-- Loop body of `buildUpdate` over the data map: a `vExpr` value (built
by `Expr`) contributes `k = <raw fragment>` and its own args; any other
value contributes `k = ?` and itself as a bind. -/
def updateSet : X → List String × List Value
  | [] => ([], [])
  | (k, v) :: rest =>
    let r := updateSet rest
    match v with
    | Value.vExpr e args => ((k ++ " = " ++ e) :: r.1, args ++ r.2)
    | _ => ((k ++ " = ?") :: r.1, v :: r.2)

/-- Embedding of `buildUpdate(query X, data X)`. `none` models a panic of
one of the unchecked assertions on `query["table"]`, `query["where"]`
or `query["binds"]`. -/
def buildUpdate (m : MySQL) (query : X) (data : X) : Option (String × List Value) := do
  let tbl ← asStr (getX query ("table"))
  let table := tbl.getD m.table
  let st := updateSet data
  let clauses1 := [("UPDATE " ++ m.pfx ++ table), ("SET " ++ String.intercalate (",") st.1)]
  let wh ← asStr (getX query ("where"))
  let clauses2 := clauses1 ++ (match wh with
    | some w => [("WHERE " ++ w)]
    | none => [])
  let qb ← asSeq (getX query ("binds"))
  some (String.intercalate (" ") clauses2, st.2 ++ qb.getD [])

/-- Embedding of `buildQuery(query X)`, shared by Count, FindOne, Find and
FindAll. Clauses are assembled in the source's fixed order; `none` models
a panic of one of the unchecked type assertions. -/
def buildQuery (m : MySQL) (query : X) : Option (String × List Value) := do
  let sel ← asStr (getX query ("select"))
  let clauses0 := [match sel with
    | some s => "SELECT " ++ s
    | none => "SELECT *"]
  let tbl ← asStr (getX query ("table"))
  let table := tbl.getD m.table
  let jn ← asStrList (getX query ("join"))
  let clauses1 := clauses0 ++ (match jn with
    | some js => ("FROM " ++ m.pfx ++ table ++ " AS a") :: js
    | none => [("FROM " ++ m.pfx ++ table)])
  let wh ← asStr (getX query ("where"))
  let clauses2 := clauses1 ++ (match wh with
    | some w => [("WHERE " ++ w)]
    | none => [])
  let gp ← asStr (getX query ("group"))
  let clauses3 := clauses2 ++ (match gp with
    | some g => [("GROUP BY " ++ g)]
    | none => [])
  let od ← asStr (getX query ("order"))
  let clauses4 := clauses3 ++ (match od with
    | some o => [("ORDER BY " ++ o)]
    | none => [])
  let off ← asInt (getX query ("offset"))
  let clauses5 := clauses4 ++ (match off with
    | some n => [("OFFSET " ++ toString n)]
    | none => [])
  let lim ← asInt (getX query ("limit"))
  let clauses6 := clauses5 ++ (match lim with
    | some n => [("LIMIT " ++ toString n)]
    | none => [])
  let qb ← asSeq (getX query ("binds"))
  some (String.intercalate (" ") clauses6, qb.getD [])

/-- Embedding of `buildDelete(query X)`; `none` models a panic of one of
the unchecked type assertions. -/
def buildDelete (m : MySQL) (query : X) : Option (String × List Value) := do
  let tbl ← asStr (getX query ("table"))
  let table := tbl.getD m.table
  let clauses1 := [("DELETE FROM " ++ m.pfx ++ table)]
  let wh ← asStr (getX query ("where"))
  let clauses2 := clauses1 ++ (match wh with
    | some w => [("WHERE " ++ w)]
    | none => [])
  let qb ← asSeq (getX query ("binds"))
  some (String.intercalate (" ") clauses2, qb.getD [])

/-- Decides whether a dynamic value is a Go slice in the sense of
`sqlx.In`'s reflection test (`[]interface`, `[]string`, `[]X`), returning
its elements as dynamic values. -/
def asSlice : Value → Option (List Value)
  | Value.vSeq xs => some xs
  | Value.vStrList ss => some (ss.map Value.vStr)
  | Value.vRows rs => some (rs.map Value.vMap)
  | _ => none

/-- Decides whether a dynamic value is an empty slice, which `sqlx.In`
rejects with an error. -/
def isEmptySlice : Value → Bool
  | Value.vSeq [] => true
  | Value.vStrList [] => true
  | Value.vRows [] => true
  | _ => false

/-- Placeholder-expansion scan of `sqlx.In`: walks the query text; each
`?` consumes the next argument — a non-slice argument keeps its single
`?`, a slice of n elements is rewritten to n comma-separated placeholders
with its elements flattened in place. `none` models the mismatch errors
(more `?` than arguments, or arguments left over). -/
def expandCore : List Char → List Value → Option (String × List Value)
  | [], args => if args.isEmpty then some ("", []) else none
  | c :: rest, args =>
    if c = '?' then
      match args with
      | [] => none
      | a :: args2 =>
        match asSlice a with
        | none => (expandCore rest args2).map (fun r => ("?" ++ r.1, a :: r.2))
        | some xs =>
          (expandCore rest args2).map (fun r =>
            (String.intercalate (", ") (xs.map (fun _ => "?")) ++ r.1, xs ++ r.2))
    else
      (expandCore rest args).map (fun r => (String.singleton c ++ r.1, r.2))

/-- Model of the placeholder expander `sqlx.In(query, args...)`: when no
argument is a slice the pair passes through unchanged; otherwise empty
slices are rejected, and the query is rewritten by `expandCore`. -/
def sqlxIn (query : String) (args : List Value) : Except String (String × List Value) :=
  if args.all (fun a => (asSlice a).isNone) then Except.ok (query, args)
  else if args.any isEmptySlice then Except.error ("empty slice passed to in query")
  else
    match expandCore query.toList args with
    | some r => Except.ok r
    | none => Except.error ("number of bindVars does not match arguments")

/-- Call pattern `_sql, args, _ := sqlx.In(sql, binds...)` used throughout
mysql.go: the error is discarded, and on error `sqlx.In` returns an empty
query and nil args, which are then handed to the driver. -/
def inIgnore (query : String) (args : List Value) : String × List Value :=
  match sqlxIn query args with
  | Except.ok r => r
  | Except.error _ => ("", [])

/-- Condition map after `Count`'s mutation: `query["select"]` is set to
`COUNT(columns[0])` when a column argument is given, else `COUNT(*)`. -/
def countQuery (query : X) (columns : List String) : X :=
  match columns with
  | c :: _ => setX query ("select") (Value.vStr ("COUNT(" ++ c ++ ")"))
  | [] => setX query ("select") (Value.vStr ("COUNT(*)"))

/-- Statement-preparation pipeline of `Count`: mutate the map, build the
query, pass it through `sqlx.In`, discard the expansion error. -/
def countPrepared (m : MySQL) (query : X) (columns : List String) :
    Option (String × List Value) :=
  (buildQuery m (countQuery query columns)).map (fun p => inIgnore p.1 p.2)

/-- Model of `Count`'s execution and result write-back: `count := 0`, then
`err := db.Get(&count, ...)` (which stores the scanned value only on
success), then the unconditional `*data = count; return err`. The prior
destination value `dest` is a parameter of the embedding because the Go
function receives it through the pointer. -/
def countRun (m : MySQL) (query : X) (columns : List String)
    (dbGet : String → List Value → Except String Int) (dest : Int) :
    Option (Int × Option String) :=
  (countPrepared m query columns).map (fun p =>
    let count : Int := 0
    match dbGet p.1 p.2 with
    | Except.ok n => (n, none)
    | Except.error e => (count, some e))

/-- Condition map after `FindOne`'s mutation: `query["limit"] = 1`. -/
def findOneQuery (query : X) : X :=
  setX query ("limit") (Value.vInt 1)

/-- Statement-preparation pipeline of `FindOne`. -/
def findOnePrepared (m : MySQL) (query : X) : Option (String × List Value) :=
  (buildQuery m (findOneQuery query)).map (fun p => inIgnore p.1 p.2)

/-- Statement-preparation pipeline of `Find`. -/
def findPrepared (m : MySQL) (query : X) : Option (String × List Value) :=
  (buildQuery m query).map (fun p => inIgnore p.1 p.2)

/-- Condition map `FindAll` builds internally: empty, or holding only
`select` joined from the column arguments. -/
def findAllQuery (columns : List String) : X :=
  match columns with
  | [] => []
  | cs => [(("select" : String), Value.vStr (String.intercalate (",") cs))]

/-- Statement-preparation pipeline of `FindAll`: the built pair goes to
`db.Select` directly, without a `sqlx.In` call. -/
def findAllPrepared (m : MySQL) (columns : List String) : Option (String × List Value) :=
  buildQuery m (findAllQuery columns)

/-- Statement-preparation pipeline of `Update`. -/
def updatePrepared (m : MySQL) (query : X) (data : X) : Option (String × List Value) :=
  (buildUpdate m query data).map (fun p => inIgnore p.1 p.2)

/-- Statement-preparation pipeline of `Delete`. -/
def deletePrepared (m : MySQL) (query : X) : Option (String × List Value) :=
  (buildDelete m query).map (fun p => inIgnore p.1 p.2)

/-- Observable transaction-handle actions of one `DoTransactions` call. -/
inductive TxAction where
  | begin : TxAction
  | exec : String → List Value → TxAction
  | rollback : TxAction
  | commit : TxAction

/-- Pure part of one iteration of the `DoTransactions` dispatch `switch`:
given the entry's tag and payload, the statement that iteration hands to
`tx.Exec` (each recognized arm executes exactly one statement; an
unrecognized tag executes none, `some none`). `none` models a panic of a
type assertion on the payload. -/
def stepStmt (m : MySQL) (key : String) (value : Value) :
    Option (Option (String × List Value)) := do
  let opt ← asX (some value)
  let opt := opt.getD []
  if key = "insert" then do
    let tbl ← asStr (getX opt ("table"))
    let tables := match tbl with
      | some s => [s]
      | none => []
    let d ← asX (getX opt ("data"))
    some (some (buildInsert m (d.getD []) tables))
  else if key = "batchInsert" then do
    let tbl ← asStr (getX opt ("table"))
    let tables := match tbl with
      | some s => [s]
      | none => []
    let cols ← asStrList (getX opt ("columns"))
    let d ← asRows (getX opt ("data"))
    some (some (buildBatchInsert m (cols.getD []) (d.getD []) tables))
  else if key = "update" then do
    let q ← asX (getX opt ("query"))
    let d ← asX (getX opt ("data"))
    let p ← buildUpdate m (q.getD []) (d.getD [])
    some (some (inIgnore p.1 p.2))
  else if key = "delete" then do
    let p ← buildDelete m opt
    some (some (inIgnore p.1 p.2))
  else
    some none

/-- One iteration of the `DoTransactions` loop against an execution
oracle `exec` (the driver's response to `tx.Exec`): the actions performed
and the error state after the iteration. -/
def doTxStep (m : MySQL) (exec : String → List Value → Option String)
    (key : String) (value : Value) : Option (List TxAction × Option String) :=
  (stepStmt m key value).map (fun os =>
    match os with
    | none => ([], none)
    | some s => ([TxAction.exec s.1 s.2], exec s.1 s.2))

/-- The `for key, value := range operations` loop of `DoTransactions`:
stops at the first iteration whose `tx.Exec` fails. -/
def doTxLoop (m : MySQL) (exec : String → List Value → Option String) :
    List (String × Value) → Option (List TxAction × Option String)
  | [] => some ([], none)
  | (k, v) :: rest => do
    let r ← doTxStep m exec k v
    match r.2 with
    | some e => some (r.1, some e)
    | none => do
      let r2 ← doTxLoop m exec rest
      some (r.1 ++ r2.1, r2.2)

/-- Embedding of `DoTransactions(operations X)`: `Begin` (whose failure is
the oracle `beginErr`), the dispatch loop, then `Rollback` and the first
error when some execution failed, else `Commit` and nil. The result is
the trace of transaction-handle actions paired with the returned error;
`none` models a panic of a type assertion inside the loop. -/
def doTransactions (m : MySQL) (beginErr : Option String)
    (exec : String → List Value → Option String) (operations : List (String × Value)) :
    Option (List TxAction × Option String) :=
  match beginErr with
  | some e => some ([], some e)
  | none =>
    match doTxLoop m exec operations with
    | none => none
    | some (acts, some e) => some (TxAction.begin :: (acts ++ [TxAction.rollback]), some e)
    | some (acts, none) => some (TxAction.begin :: (acts ++ [TxAction.commit]), none)

/-- Statements a batch would execute, in iteration order, were every one
of them to succeed; `none` when some entry is ill-typed (a panic). -/
def txStmts (m : MySQL) : List (String × Value) → Option (List (String × List Value))
  | [] => some []
  | (k, v) :: rest => do
    let os ← stepStmt m k v
    let restS ← txStmts m rest
    match os with
    | none => some restS
    | some s => some (s :: restS)

/-- Prefix of a statement list actually executed under the oracle: every
statement up to and including the first failing one. -/
def execedStmts (exec : String → List Value → Option String) :
    List (String × List Value) → List (String × List Value)
  | [] => []
  | s :: rest =>
    match exec s.1 s.2 with
    | some _ => [s]
    | none => s :: execedStmts exec rest

/-- Error of the first failing statement of a list under the oracle. -/
def firstErr (exec : String → List Value → Option String) :
    List (String × List Value) → Option String
  | [] => none
  | s :: rest =>
    match exec s.1 s.2 with
    | some e => some e
    | none => firstErr exec rest

/-! Helper lemmas shared by the claim theorems. -/

/-- Lookup after assignment on the same key yields the assigned value,
whatever the map held before. -/
theorem getX_setX (x : X) (k : String) (v : Value) : getX (setX x k v) k = some v := by
  induction x with
  | nil => simp [setX, getX]
  | cons hd tl ih =>
    obtain ⟨k2, v2⟩ := hd
    by_cases h : k2 = k
    · simp [setX, getX, h]
    · simp [setX, getX, h, ih]

/-- Closed form of the `buildInsert` loop: columns are the map's keys,
placeholders one `?` per entry, binds the map's values, all in iteration
order. -/
theorem insertCols_eq (d : X) :
    insertCols d = (d.map Prod.fst, List.replicate d.length ("?"), d.map Prod.snd) := by
  induction d with
  | nil => rfl
  | cons hd tl ih =>
    obtain ⟨k, v⟩ := hd
    simp [insertCols, ih, List.replicate]

/-- Closed form of the inner `buildBatchInsert` loop over one row. -/
theorem batchCols_eq (row : X) (cols : List String) :
    batchCols row cols =
      (List.replicate cols.length ("?"),
        cols.map (fun c => (getX row c).getD Value.vNull)) := by
  induction cols with
  | nil => rfl
  | cons c cs ih => simp [batchCols, ih, List.replicate]

/-- Closed form of the outer `buildBatchInsert` loop: one identical
parenthesized group per row, and the binds in row-major order. -/
theorem batchRows_eq (cols : List String) (rows : List X) :
    batchRows cols rows =
      (List.replicate rows.length
          ("(" ++ String.intercalate (",") (List.replicate cols.length ("?")) ++ ")"),
        rows.flatMap (fun r => cols.map (fun c => (getX r c).getD Value.vNull))) := by
  induction rows with
  | nil => rfl
  | cons r rest ih => simp [batchRows, batchCols_eq, ih, List.replicate]

/-- Per-entry SET fragment of `buildUpdate`, as the spec words it. -/
def specSetPiece : String × Value → String
  | (k, Value.vExpr e _) => k ++ " = " ++ e
  | (k, _) => k ++ " = ?"

/-- Per-entry SET binds of `buildUpdate`, as the spec words it: an
Expression Literal contributes its own binds in their internal order, any
other value contributes itself. -/
def specSetBind : String × Value → List Value
  | (_, Value.vExpr _ args) => args
  | (_, v) => [v]

/-- Closed form of the `buildUpdate` SET loop. -/
theorem updateSet_eq (d : X) :
    updateSet d = (d.map specSetPiece, d.flatMap specSetBind) := by
  induction d with
  | nil => rfl
  | cons hd tl ih =>
    obtain ⟨k, v⟩ := hd
    cases v <;> simp [updateSet, specSetPiece, specSetBind, ih]

/-- Bind-list length of the batch-insert closed form. -/
theorem batchBinds_length (cols : List String) (rows : List X) :
    (rows.flatMap (fun r => cols.map (fun c => (getX r c).getD Value.vNull))).length =
      rows.length * cols.length := by
  induction rows with
  | nil => simp
  | cons r rest ih =>
    simp [ih]
    ring

/-- C6: buildInsert produces a column list and a placeholder list both of
length |D| and a bind list of exactly D's values in the emission order of
the columns, in the SQL shape INSERT INTO prefix table (cols) VALUES
(placeholders); the table defaults to the builder's bound table and the
override replaces it. -/
theorem buildInsert_shape (m : MySQL) (data : X) (tables : List String) :
    buildInsert m data tables =
      ("INSERT INTO " ++ m.pfx ++ tables.headD m.table ++ " (" ++
          String.intercalate (",") (data.map Prod.fst) ++ ") VALUES (" ++
          String.intercalate (",") (List.replicate data.length ("?")) ++ ")",
        data.map Prod.snd) ∧
    (data.map Prod.fst).length = data.length ∧
    (List.replicate data.length ("?")).length = data.length ∧
    (buildInsert m data []).1 =
      "INSERT INTO " ++ m.pfx ++ m.table ++ " (" ++
        String.intercalate (",") (data.map Prod.fst) ++ ") VALUES (" ++
        String.intercalate (",") (List.replicate data.length ("?")) ++ ")" ∧
    ∀ t ts, (buildInsert m data (t :: ts)).1 =
      "INSERT INTO " ++ m.pfx ++ t ++ " (" ++
        String.intercalate (",") (data.map Prod.fst) ++ ") VALUES (" ++
        String.intercalate (",") (List.replicate data.length ("?")) ++ ")" := by
  refine ⟨?_, by simp, by simp, ?_, ?_⟩
  · simp [buildInsert, insertCols_eq]
  · simp [buildInsert, insertCols_eq]
  · intro t ts
    simp [buildInsert, insertCols_eq]

/-- C5: buildBatchInsert produces |R| parenthesized placeholder groups of
|C| placeholders each, and a bind list of |R| times |C| values ordered
row-major then column-major following C; a row missing a key of C
contributes the database-null value at that position, and row keys
outside C are never consulted. -/
theorem buildBatchInsert_shape (m : MySQL) (columns : List String) (rows : List X)
    (tables : List String) :
    buildBatchInsert m columns rows tables =
      ("INSERT INTO " ++ m.pfx ++ tables.headD m.table ++ " (" ++
          String.intercalate (",") columns ++ ") VALUES " ++
          String.intercalate (",")
            (List.replicate rows.length
              ("(" ++ String.intercalate (",") (List.replicate columns.length ("?")) ++ ")")),
        rows.flatMap (fun r => columns.map (fun c => (getX r c).getD Value.vNull))) ∧
    (buildBatchInsert m columns rows tables).2.length = rows.length * columns.length := by
  have h := batchRows_eq columns rows
  constructor
  · simp [buildBatchInsert, h]
  · have h2 := batchBinds_length columns rows
    simp only [buildBatchInsert, h]
    exact h2

/-- C8: Count sets the condition map's select entry to COUNT(*), or
COUNT(column) when a column argument is given, overwriting any
caller-supplied select; FindOne sets the map's limit entry to 1,
overwriting any caller-supplied limit; both then build the query from the
mutated map. -/
theorem count_findOne_overwrite (m : MySQL) (query : X) (columns : List String) :
    getX (countQuery query columns) ("select") =
      some (Value.vStr (match columns with
        | c :: _ => "COUNT(" ++ c ++ ")"
        | [] => "COUNT(*)")) ∧
    getX (findOneQuery query) ("limit") = some (Value.vInt 1) ∧
    countPrepared m query columns =
      (buildQuery m (countQuery query columns)).map (fun p => inIgnore p.1 p.2) ∧
    findOnePrepared m query =
      (buildQuery m (findOneQuery query)).map (fun p => inIgnore p.1 p.2) := by
  refine ⟨?_, getX_setX query ("limit") (Value.vInt 1), rfl, rfl⟩
  cases columns with
  | nil => exact getX_setX query ("select") (Value.vStr ("COUNT(*)"))
  | cons c cs => exact getX_setX query ("select") (Value.vStr ("COUNT(" ++ c ++ ")"))

/-- C3 counterexample: the claim quantifies over values of unexpected
dynamic type, but `buildQuery` applies the unchecked assertion
`v.(string)` to a condition map holding an int under the key table, which
panics (modelled as `none`), so the builder does not return a (sql, binds)
pair on this input. -/
theorem builders_total_counterexample :
    buildQuery ⟨("user"), ("")⟩ [(("table"), Value.vInt 0)] = none := rfl

/-- C3 (amended): buildInsert and buildBatchInsert return a (sql, binds)
pair on every input; buildUpdate, buildQuery and buildDelete return a
(sql, binds) pair whenever each recognized condition key they consult
holds a value of its expected dynamic type — a recognized key of another
dynamic type makes the unchecked type assertion panic instead. -/
theorem builders_total_on_welltyped (m : MySQL) (query data : X)
    (columns : List String) (rows : List X) (tables : List String)
    (hsel : (asStr (getX query ("select"))).isSome = true)
    (htbl : (asStr (getX query ("table"))).isSome = true)
    (hjn : (asStrList (getX query ("join"))).isSome = true)
    (hwh : (asStr (getX query ("where"))).isSome = true)
    (hgp : (asStr (getX query ("group"))).isSome = true)
    (hod : (asStr (getX query ("order"))).isSome = true)
    (hoff : (asInt (getX query ("offset"))).isSome = true)
    (hlim : (asInt (getX query ("limit"))).isSome = true)
    (hbds : (asSeq (getX query ("binds"))).isSome = true) :
    (∃ p, buildInsert m data tables = p) ∧
    (∃ p, buildBatchInsert m columns rows tables = p) ∧
    (buildUpdate m query data).isSome = true ∧
    (buildQuery m query).isSome = true ∧
    (buildDelete m query).isSome = true := by
  obtain ⟨sel, hsel⟩ := Option.isSome_iff_exists.mp hsel
  obtain ⟨tbl, htbl⟩ := Option.isSome_iff_exists.mp htbl
  obtain ⟨jn, hjn⟩ := Option.isSome_iff_exists.mp hjn
  obtain ⟨wh, hwh⟩ := Option.isSome_iff_exists.mp hwh
  obtain ⟨gp, hgp⟩ := Option.isSome_iff_exists.mp hgp
  obtain ⟨od, hod⟩ := Option.isSome_iff_exists.mp hod
  obtain ⟨off, hoff⟩ := Option.isSome_iff_exists.mp hoff
  obtain ⟨lim, hlim⟩ := Option.isSome_iff_exists.mp hlim
  obtain ⟨bds, hbds⟩ := Option.isSome_iff_exists.mp hbds
  refine ⟨⟨_, rfl⟩, ⟨_, rfl⟩, ?_, ?_, ?_⟩
  · simp [buildUpdate, htbl, hwh, hbds]
  · simp [buildQuery, hsel, htbl, hjn, hwh, hgp, hod, hoff, hlim, hbds]
  · simp [buildDelete, htbl, hwh, hbds]

/-- Witness for the amended C3 theorem at a fully populated, well-typed
condition map. -/
theorem builders_total_on_welltyped_witness :
    (buildUpdate ⟨("user"), ("t_")⟩
        [(("table"), Value.vStr ("log")), (("where"), Value.vStr ("id = ?")),
          (("binds"), Value.vSeq [Value.vInt 3])]
        [(("age"), Value.vInt 7)]).isSome = true ∧
    (buildQuery ⟨("user"), ("t_")⟩
        [(("table"), Value.vStr ("log")), (("where"), Value.vStr ("id = ?")),
          (("binds"), Value.vSeq [Value.vInt 3])]).isSome = true ∧
    (buildDelete ⟨("user"), ("t_")⟩
        [(("table"), Value.vStr ("log")), (("where"), Value.vStr ("id = ?")),
          (("binds"), Value.vSeq [Value.vInt 3])]).isSome = true := by
  have h := builders_total_on_welltyped ⟨("user"), ("t_")⟩
    [(("table"), Value.vStr ("log")), (("where"), Value.vStr ("id = ?")),
      (("binds"), Value.vSeq [Value.vInt 3])]
    [(("age"), Value.vInt 7)] [] [] [] rfl rfl rfl rfl rfl rfl rfl rfl rfl
  exact ⟨h.2.2.1, h.2.2.2.1, h.2.2.2.2⟩

/-- C4: for every condition map Q and data map D, buildUpdate emits per
data entry `col = <raw fragment>` with the Expression Literal's own binds
appended in the literal's internal order when the value is an Expression
Literal, and `col = ?` with the value appended otherwise; and in the
returned bind list every SET-clause bind precedes every bind taken from
Q's binds entry. Stated for condition maps whose recognized keys are
well-typed, since an ill-typed key panics the builder. -/
theorem buildUpdate_set_clause (m : MySQL) (query data : X)
    (tbl wh : Option String) (bds : Option (List Value))
    (htbl : asStr (getX query ("table")) = some tbl)
    (hwh : asStr (getX query ("where")) = some wh)
    (hbds : asSeq (getX query ("binds")) = some bds) :
    buildUpdate m query data =
      some (String.intercalate (" ")
          ([("UPDATE " ++ m.pfx ++ tbl.getD m.table),
            ("SET " ++ String.intercalate (",") (data.map specSetPiece))] ++
            (match wh with
              | some w => [("WHERE " ++ w)]
              | none => [])),
        data.flatMap specSetBind ++ bds.getD []) := by
  cases wh <;> simp [buildUpdate, htbl, hwh, hbds, updateSet_eq]

/-- Witness for the buildUpdate theorem at a concrete map holding both a
plain value and an Expression Literal. -/
theorem buildUpdate_set_clause_witness :
    buildUpdate ⟨("user"), ("")⟩
        [(("where"), Value.vStr ("id = ?")), (("binds"), Value.vSeq [Value.vInt 9])]
        [(("age"), Value.vInt 7),
          (("price"), Value.vExpr ("price + ?") [Value.vInt 2])] =
      some (String.intercalate (" ")
          ([("UPDATE " ++ "" ++ (Option.getD (some ("user")) ("user"))),
            ("SET " ++ String.intercalate (",")
              ([(("age" : String), Value.vInt 7),
                (("price"), Value.vExpr ("price + ?") [Value.vInt 2])].map specSetPiece))] ++
            [("WHERE " ++ "id = ?")]),
        [(("age" : String), Value.vInt 7),
          (("price"), Value.vExpr ("price + ?") [Value.vInt 2])].flatMap specSetBind ++
          [Value.vInt 9]) := by
  have h := buildUpdate_set_clause ⟨("user"), ("")⟩
    [(("where"), Value.vStr ("id = ?")), (("binds"), Value.vSeq [Value.vInt 9])]
    [(("age"), Value.vInt 7), (("price"), Value.vExpr ("price + ?") [Value.vInt 2])]
    none (some ("id = ?")) (some [Value.vInt 9]) rfl rfl rfl
  exact h

/-- Clause list of the read-query builder as the spec words it: SELECT,
FROM (aliased AS a exactly when a join clause list is present, followed by
the join strings verbatim), then WHERE, GROUP BY, ORDER BY, OFFSET and
LIMIT, each present exactly when its key is present. -/
def specQueryClauses (m : MySQL) (sel tbl : Option String) (jn : Option (List String))
    (wh gp od : Option String) (off lim : Option Int) : List String :=
  [(match sel with
    | some s => "SELECT " ++ s
    | none => "SELECT *")] ++
  (match jn with
    | some js => ("FROM " ++ m.pfx ++ tbl.getD m.table ++ " AS a") :: js
    | none => [("FROM " ++ m.pfx ++ tbl.getD m.table)]) ++
  (match wh with
    | some w => [("WHERE " ++ w)]
    | none => []) ++
  (match gp with
    | some g => [("GROUP BY " ++ g)]
    | none => []) ++
  (match od with
    | some o => [("ORDER BY " ++ o)]
    | none => []) ++
  (match off with
    | some n => [("OFFSET " ++ toString n)]
    | none => []) ++
  (match lim with
    | some n => [("LIMIT " ++ toString n)]
    | none => [])

/-- C7: buildQuery assembles its clauses in the fixed order given by
`specQueryClauses`, each conditional clause present exactly when its key
is present, its bind list is exactly the caller-given binds sequence, and
on the empty condition map it returns exactly SELECT * FROM prefix table
with an empty bind list. Stated for condition maps whose recognized keys
are well-typed, since an ill-typed key panics the builder. -/
theorem buildQuery_clause_order (m : MySQL) (query : X)
    (sel tbl : Option String) (jn : Option (List String)) (wh gp od : Option String)
    (off lim : Option Int) (bds : Option (List Value))
    (hsel : asStr (getX query ("select")) = some sel)
    (htbl : asStr (getX query ("table")) = some tbl)
    (hjn : asStrList (getX query ("join")) = some jn)
    (hwh : asStr (getX query ("where")) = some wh)
    (hgp : asStr (getX query ("group")) = some gp)
    (hod : asStr (getX query ("order")) = some od)
    (hoff : asInt (getX query ("offset")) = some off)
    (hlim : asInt (getX query ("limit")) = some lim)
    (hbds : asSeq (getX query ("binds")) = some bds) :
    buildQuery m query =
      some (String.intercalate (" ") (specQueryClauses m sel tbl jn wh gp od off lim),
        bds.getD []) ∧
    buildQuery m [] = some ("SELECT * FROM " ++ m.pfx ++ m.table, []) := by
  constructor
  · simp [buildQuery, hsel, htbl, hjn, hwh, hgp, hod, hoff, hlim, hbds, specQueryClauses]
  · show some (String.intercalate (" ")
        [("SELECT *"), ("FROM " ++ m.pfx ++ m.table)], ([] : List Value)) = _
    have h : ("SELECT *" ++ " ") ++ ("FROM " ++ m.pfx ++ m.table) =
        ("SELECT * FROM " ++ m.pfx) ++ m.table := by
      rw [← String.append_assoc, ← String.append_assoc]
      exact rfl
    rw [show String.intercalate (" ") [("SELECT *"), ("FROM " ++ m.pfx ++ m.table)] =
      ("SELECT *" ++ " ") ++ ("FROM " ++ m.pfx ++ m.table) from rfl, h]

/-- Witness for the buildQuery clause-order theorem at a fully populated
condition map. -/
theorem buildQuery_clause_order_witness :
    buildQuery ⟨("user"), ("t_")⟩
        [(("select"), Value.vStr ("id,name")), (("join"), Value.vStrList
            [("INNER JOIN t_card AS b ON a.id = b.uid")]),
          (("where"), Value.vStr ("a.id = ?")), (("group"), Value.vStr ("a.id")),
          (("order"), Value.vStr ("a.id DESC")), (("offset"), Value.vInt 5),
          (("limit"), Value.vInt 10), (("binds"), Value.vSeq [Value.vInt 1])] =
      some (String.intercalate (" ") (specQueryClauses ⟨("user"), ("t_")⟩
          (some ("id,name")) none (some [("INNER JOIN t_card AS b ON a.id = b.uid")])
          (some ("a.id = ?")) (some ("a.id")) (some ("a.id DESC"))
          (some 5) (some 10)),
        [Value.vInt 1]) := by
  have h := buildQuery_clause_order ⟨("user"), ("t_")⟩
    [(("select"), Value.vStr ("id,name")), (("join"), Value.vStrList
        [("INNER JOIN t_card AS b ON a.id = b.uid")]),
      (("where"), Value.vStr ("a.id = ?")), (("group"), Value.vStr ("a.id")),
      (("order"), Value.vStr ("a.id DESC")), (("offset"), Value.vInt 5),
      (("limit"), Value.vInt 10), (("binds"), Value.vSeq [Value.vInt 1])]
    (some ("id,name")) none (some [("INNER JOIN t_card AS b ON a.id = b.uid")])
    (some ("a.id = ?")) (some ("a.id")) (some ("a.id DESC")) (some 5) (some 10)
    (some [Value.vInt 1]) rfl rfl rfl rfl rfl rfl rfl rfl rfl
  exact h.1

/-- Expansion is the identity on an empty bind list: no argument is a
slice, so `sqlx.In` returns the pair unchanged. -/
theorem inIgnore_nil (q : String) : inIgnore q [] = (q, []) := rfl

/-- C2: for every executed statement other than a plain insert or a
batch-insert — Update, Count, FindOne, Find, FindAll, Delete, and the
update and delete arms of DoTransactions — the (sql, binds) pair produced
by the builder is passed through the placeholder expander before being
handed to the driver. For FindAll the source omits the `sqlx.In` call,
but its internally built condition map never carries binds, so the pair
handed to the driver still equals the expander applied to the builder's
output. -/
theorem expander_applied_before_execution (m : MySQL) :
    (∀ query data, updatePrepared m query data =
      (buildUpdate m query data).map (fun p => inIgnore p.1 p.2)) ∧
    (∀ query columns, countPrepared m query columns =
      (buildQuery m (countQuery query columns)).map (fun p => inIgnore p.1 p.2)) ∧
    (∀ query, findOnePrepared m query =
      (buildQuery m (findOneQuery query)).map (fun p => inIgnore p.1 p.2)) ∧
    (∀ query, findPrepared m query =
      (buildQuery m query).map (fun p => inIgnore p.1 p.2)) ∧
    (∀ columns, findAllPrepared m columns =
      (buildQuery m (findAllQuery columns)).map (fun p => inIgnore p.1 p.2)) ∧
    (∀ query, deletePrepared m query =
      (buildDelete m query).map (fun p => inIgnore p.1 p.2)) ∧
    (∀ opt q d, asX (getX opt ("query")) = some q → asX (getX opt ("data")) = some d →
      stepStmt m ("update") (Value.vMap opt) =
        (buildUpdate m (q.getD []) (d.getD [])).map (fun p => some (inIgnore p.1 p.2))) ∧
    (∀ opt, stepStmt m ("delete") (Value.vMap opt) =
      (buildDelete m opt).map (fun p => some (inIgnore p.1 p.2))) := by
  refine ⟨fun _ _ => rfl, fun _ _ => rfl, fun _ => rfl, fun _ => rfl, ?_, fun _ => rfl,
    ?_, ?_⟩
  · intro columns
    cases columns with
    | nil => rfl
    | cons c cs => rfl
  · intro opt q d hq hd
    have h1 : asX (some (Value.vMap opt)) = some (some opt) := rfl
    simp [stepStmt, h1, hq, hd]
    cases buildUpdate m (q.getD []) (d.getD []) <;> rfl
  · intro opt
    have h1 : asX (some (Value.vMap opt)) = some (some opt) := rfl
    simp [stepStmt, h1]
    cases buildDelete m opt <;> rfl

/-- Witness for the expander theorem at the DoTransactions update arm,
with a sequence-valued bind that the expander must flatten. -/
theorem expander_applied_before_execution_witness :
    stepStmt ⟨("user"), ("")⟩ ("update")
        (Value.vMap [(("query"), Value.vMap
            [(("where"), Value.vStr ("id IN (?)")),
              (("binds"), Value.vSeq [Value.vSeq [Value.vInt 1, Value.vInt 2]])]),
          (("data"), Value.vMap [(("age"), Value.vInt 7)])]) =
      (buildUpdate ⟨("user"), ("")⟩
          [(("where"), Value.vStr ("id IN (?)")),
            (("binds"), Value.vSeq [Value.vSeq [Value.vInt 1, Value.vInt 2]])]
          [(("age"), Value.vInt 7)]).map (fun p => some (inIgnore p.1 p.2)) := by
  have h := (expander_applied_before_execution ⟨("user"), ("")⟩).2.2.2.2.2.2.1
    [(("query"), Value.vMap
        [(("where"), Value.vStr ("id IN (?)")),
          (("binds"), Value.vSeq [Value.vSeq [Value.vInt 1, Value.vInt 2]])]),
      (("data"), Value.vMap [(("age"), Value.vInt 7)])]
    (some [(("where"), Value.vStr ("id IN (?)")),
      (("binds"), Value.vSeq [Value.vSeq [Value.vInt 1, Value.vInt 2]])])
    (some [(("age"), Value.vInt 7)]) rfl rfl
  exact h

/-- The dispatch loop executes exactly the statements up to and including
the first failing one, and its error state is the first failure. -/
theorem doTxLoop_eq (m : MySQL) (exec : String → List Value → Option String)
    (ops : List (String × Value)) (stmts : List (String × List Value))
    (h : txStmts m ops = some stmts) :
    doTxLoop m exec ops =
      some ((execedStmts exec stmts).map (fun s => TxAction.exec s.1 s.2),
        firstErr exec stmts) := by
  induction ops generalizing stmts with
  | nil =>
    simp [txStmts] at h
    subst h
    rfl
  | cons kv rest ih =>
    obtain ⟨k, v⟩ := kv
    cases hso : stepStmt m k v with
    | none => rw [txStmts] at h; simp [hso] at h
    | some os =>
      cases hre : txStmts m rest with
      | none => rw [txStmts] at h; simp [hso, hre] at h
      | some restS =>
        rw [txStmts] at h
        simp only [hso, hre, Option.some_bind] at h
        cases os with
        | none =>
          injection h with h2
          subst h2
          rw [doTxLoop]
          simp [doTxStep, hso, ih restS hre]
        | some s =>
          injection h with h2
          subst h2
          rw [doTxLoop]
          cases hex : exec s.1 s.2 with
          | none =>
            simp [doTxStep, hso, hex, execedStmts, firstErr, ih restS hre]
          | some e =>
            simp [doTxStep, hso, hex, execedStmts, firstErr]

/-- If no statement fails, the loop executes every statement. -/
theorem execedStmts_of_no_err (exec : String → List Value → Option String)
    (stmts : List (String × List Value)) (h : firstErr exec stmts = none) :
    execedStmts exec stmts = stmts := by
  induction stmts with
  | nil => rfl
  | cons s rest ih =>
    rw [firstErr] at h
    cases hex : exec s.1 s.2 with
    | none =>
      rw [hex] at h
      simp [execedStmts, hex, ih h]
    | some e => rw [hex] at h; simp at h

/-- C1: DoTransactions begins one transaction and iterates the batch; the
trace executes the statements up to and including the first failing one
and ends in Rollback with the first error returned verbatim when some
execution fails, and executes every statement and ends in Commit with nil
returned when all succeed; Commit never appears in a failing trace (no
partial commit). Stated for batches whose entries are well-typed, since
an ill-typed entry panics the loop. -/
theorem doTransactions_tx_semantics (m : MySQL)
    (exec : String → List Value → Option String)
    (ops : List (String × Value)) (stmts : List (String × List Value))
    (hwf : txStmts m ops = some stmts) :
    doTransactions m none exec ops =
      some (TxAction.begin ::
          ((execedStmts exec stmts).map (fun s => TxAction.exec s.1 s.2) ++
            [match firstErr exec stmts with
              | none => TxAction.commit
              | some _ => TxAction.rollback]),
        firstErr exec stmts) ∧
    (firstErr exec stmts = none → execedStmts exec stmts = stmts) ∧
    (∀ e, firstErr exec stmts = some e →
      TxAction.commit ∉
        (TxAction.begin ::
          ((execedStmts exec stmts).map (fun s => TxAction.exec s.1 s.2) ++
            [TxAction.rollback]))) := by
  refine ⟨?_, execedStmts_of_no_err exec stmts, ?_⟩
  · rw [doTransactions, doTxLoop_eq m exec ops stmts hwf]
    cases hfe : firstErr exec stmts <;> simp
  · intro e hfe
    simp

/-- Witness for the transaction-semantics theorem: a batch of one delete
entry, with an execution oracle under which every statement succeeds. -/
theorem doTransactions_tx_semantics_witness :
    txStmts ⟨("user"), ("")⟩
        [(("delete"), Value.vMap [(("where"), Value.vStr ("id = ?")),
          (("binds"), Value.vSeq [Value.vInt 7])])] =
      some [(("DELETE FROM user WHERE id = ?"), [Value.vInt 7])] ∧
    doTransactions ⟨("user"), ("")⟩ none (fun _ _ => none)
        [(("delete"), Value.vMap [(("where"), Value.vStr ("id = ?")),
          (("binds"), Value.vSeq [Value.vInt 7])])] =
      some (TxAction.begin ::
          (((execedStmts (fun _ _ => none)
              [(("DELETE FROM user WHERE id = ?"), [Value.vInt 7])]).map
            (fun s => TxAction.exec s.1 s.2)) ++
            [match firstErr (fun _ _ => none)
                [(("DELETE FROM user WHERE id = ?"), [Value.vInt 7])] with
              | none => TxAction.commit
              | some _ => TxAction.rollback]),
        firstErr (fun _ _ => none)
          [(("DELETE FROM user WHERE id = ?"), [Value.vInt 7])]) :=
  ⟨rfl, (doTransactions_tx_semantics ⟨("user"), ("")⟩ (fun _ _ => none)
    [(("delete"), Value.vMap [(("where"), Value.vStr ("id = ?")),
      (("binds"), Value.vSeq [Value.vInt 7])])]
    [(("DELETE FROM user WHERE id = ?"), [Value.vInt 7])] rfl).1⟩

/-- C9: a batch entry whose tag is none of insert, batchInsert, update,
delete is silently skipped: the dispatch hands no statement to the
transaction handle, leaves the error state nil, and a batch consisting of
such an entry commits and returns nil. -/
theorem unknown_tag_silently_skipped (m : MySQL)
    (exec : String → List Value → Option String) (key : String) (opt : X)
    (h1 : key ≠ "insert") (h2 : key ≠ "batchInsert")
    (h3 : key ≠ "update") (h4 : key ≠ "delete") :
    stepStmt m key (Value.vMap opt) = some none ∧
    doTxStep m exec key (Value.vMap opt) = some ([], none) ∧
    doTransactions m none exec [(key, Value.vMap opt)] =
      some ([TxAction.begin, TxAction.commit], none) := by
  have hmap : asX (some (Value.vMap opt)) = some (some opt) := rfl
  have hs : stepStmt m key (Value.vMap opt) = some none := by
    simp [stepStmt, hmap, h1, h2, h3, h4]
  refine ⟨hs, ?_, ?_⟩
  · simp [doTxStep, hs]
  · simp [doTransactions, doTxLoop, doTxStep, hs]

/-- Witness for the unknown-tag theorem at the concrete tag upsert. -/
theorem unknown_tag_silently_skipped_witness :
    stepStmt ⟨("user"), ("")⟩ ("upsert") (Value.vMap []) = some none ∧
    doTransactions ⟨("user"), ("")⟩ none (fun _ _ => none)
        [(("upsert"), Value.vMap [])] =
      some ([TxAction.begin, TxAction.commit], none) := by
  have h := unknown_tag_silently_skipped ⟨("user"), ("")⟩ (fun _ _ => none)
    ("upsert") [] (by decide) (by decide) (by decide) (by decide)
  exact ⟨h.1, h.2.2⟩

/-- C10: Count assigns the caller's destination unconditionally: its
result is independent of the destination's prior value, and when the
query execution returns an error the destination is overwritten with 0. -/
theorem count_overwrites_dest (m : MySQL) (query : X) (columns : List String)
    (dbGet : String → List Value → Except String Int) (d1 d2 : Int)
    (p : String × List Value) (e : String)
    (hp : countPrepared m query columns = some p)
    (he : dbGet p.1 p.2 = Except.error e) :
    countRun m query columns dbGet d1 = countRun m query columns dbGet d2 ∧
    countRun m query columns dbGet d1 = some (0, some e) := by
  refine ⟨rfl, ?_⟩
  simp [countRun, hp, he]

/-- Witness for the Count overwrite theorem: a failing oracle makes Count
store 0 in the destination regardless of its prior value. -/
theorem count_overwrites_dest_witness :
    countPrepared ⟨("user"), ("")⟩ [] [] = some (("SELECT COUNT(*) FROM user"), []) ∧
    countRun ⟨("user"), ("")⟩ [] [] (fun _ _ => Except.error ("boom")) 42 =
      some (0, some ("boom")) := by
  have h := count_overwrites_dest ⟨("user"), ("")⟩ [] []
    (fun _ _ => Except.error ("boom")) 42 7
    (("SELECT COUNT(*) FROM user"), []) ("boom") rfl rfl
  exact ⟨rfl, h.2⟩

end Yiigo
